import Mathlib

/-!
Shallow embedding of the Real-Time Transaction Settlement System core:
the Intake and Deduplication Pipeline (src/settlement_engine/services/intake_service.py)
and the Batch Optimization Engine (src/settlement_engine/services/batching_service.py),
with the data model of src/settlement_engine/models.py.

Modelling conventions:
- Python Decimal and float amounts are modelled as rationals.
- Timestamps are natural numbers (seconds).
- The external LP solver (pulp CBC), the SHA-256 digest (hashlib), the
  idempotency store (redis) and the publisher (kafka) are external
  collaborators: the solver is a parameter returning either an error or a
  binary assignment, the digest is an abstract string function, and store
  and publisher outcomes are explicit environment flags, with the store
  state and the side-effect trace threaded explicitly.
-/

namespace Settlement

/-- models.py SettlementWindow enum. -/
inductive SettlementWindow
  | rtgs
  | t0
  | t1
  | t2
  deriving DecidableEq, Repr

/-- models.py TransactionStatus enum. -/
inductive TransactionStatus
  | submitted
  | deduped
  | batched
  | consensusPending
  | consensusApproved
  | settlementPending
  | settled
  | failed
  | reversed
  deriving DecidableEq, Repr

/-- models.py TransactionRequest. Static field constraints (pydantic
validators) are enforced at the construction boundary and are not part of
the carrier type; the intake pipeline checks the cross-field rules. -/
structure TransactionRequest where
  transaction_id : String
  amount : ℚ
  source_currency : String
  destination_currency : String
  source_account : String
  destination_account : String
  counterparty_id : String
  idempotency_key : String
  settlement_window : SettlementWindow
  metadata : List (String × String)
  deriving DecidableEq, Repr

/-- models.py TransactionResponse, extending TransactionRequest. -/
structure TransactionResponse extends TransactionRequest where
  status : TransactionStatus
  batch_id : Option String
  settlement_time : Option ℕ
  created_at : ℕ
  updated_at : ℕ
  fx_rate : Option ℚ
  settlement_fee : Option ℚ
  deriving DecidableEq, Repr

/-- models.py BatchOptimizationResult. The optimization_metrics dict is a
string association list; netting_details maps a counterparty pair to its
(sent, received) totals. -/
structure BatchOptimizationResult where
  batch_id : String
  transactions : List String
  optimization_metrics : List (String × String)
  total_cost_before_optimization : ℚ
  total_cost_after_optimization : ℚ
  cost_savings : ℚ
  cost_savings_percentage : ℚ
  settlement_window : SettlementWindow
  netting_details : List ((String × String) × ℚ × ℚ)
  deriving DecidableEq, Repr

/-! ## Batch Optimization Engine (batching_service.py) -/

/-- BatchingService.FX_SPREADS: static currency-pair spread table in
basis points. -/
def FX_SPREADS (pair : String × String) : Option ℚ :=
  if pair = ("USD", "EUR") then some (5/2)
  else if pair = ("EUR", "USD") then some (5/2)
  else if pair = ("USD", "GBP") then some 3
  else if pair = ("GBP", "USD") then some 3
  else if pair = ("USD", "JPY") then some 2
  else if pair = ("JPY", "USD") then some 2
  else if pair = ("EUR", "GBP") then some 2
  else if pair = ("GBP", "EUR") then some 2
  else none

/-- BatchingService constants and constructor arguments. WIRE_COST and
CONSOLIDATION_DISCOUNT are class attributes with the source defaults. -/
structure BatchingService where
  max_batch_size : ℕ := 1000
  wire_cost : ℚ := 5
  consolidation_discount : ℚ := 15/100

/-- BatchingService._calculate_fx_cost: amount times the pair spread in
basis points, with a 5 bps default for unlisted pairs. -/
def calculate_fx_cost (src_curr dst_curr : String) (amount : ℚ) : ℚ :=
  let spread_bp := (FX_SPREADS (src_curr, dst_curr)).getD 5
  amount * (spread_bp / 10000)

/-- The LP solver outcome for one chunk: either a raised error (caught by
the caller) or a binary assignment, read as variable txn_i_batch_j being
above one half. The solver is an external collaborator (pulp CBC). -/
abbrev Solver :=
  List TransactionResponse → Option (List (String × ℚ)) → Except Unit (ℕ → ℕ → Bool)

/-- The LP feasibility constraint of _solve_batch_optimization: each
transaction index below n sits in exactly one of the logical batches
1, 2, 3. -/
def ExactlyOneBatch (n : ℕ) (sol : ℕ → ℕ → Bool) : Prop :=
  ∀ i < n, (([1, 2, 3].filter (fun j => sol i j)).length = 1)

/-- The liquidity constraint of _add_liquidity_constraints: for each
constrained currency, total amount over transactions with that source
currency stays within the limit (each transaction sits in one batch, so
the sum over all batch variables is the plain sum). -/
def LiquidityOk (txns : List TransactionResponse) (constraints : List (String × ℚ)) : Prop :=
  ∀ p ∈ constraints,
    (((txns.filter (fun t => t.source_currency = p.1)).map (fun t => t.amount)).sum ≤ p.2)

/-- Members of logical batch j in index order, as collected by the loop at
the top of _extract_solution. -/
def batchMembers (txns : List TransactionResponse) (sol : ℕ → ℕ → Bool) (j : ℕ) :
    List String :=
  ((txns.enum.filter (fun p => sol p.1 j)).map (fun p => p.2.transaction_id))

/-- BatchingService._calculate_netting. Keyed by the sorted pair of the
counterparty id and the literal string self; amounts with counterparty id
above self count as sent, the rest as received. -/
def nettingUpdate (m : List ((String × String) × ℚ × ℚ)) (k : String × String)
    (sent received : ℚ) : List ((String × String) × ℚ × ℚ) :=
  match m with
  | [] => [(k, sent, received)]
  | (k', s, r) :: rest =>
      if k' = k then (k', s + sent, r + received) :: rest
      else (k', s, r) :: nettingUpdate rest k sent received

/-- BatchingService._calculate_netting over the transactions whose id is in
the emitted batch. -/
def calculate_netting (transactions : List TransactionResponse)
    (batch_txns : List String) : List ((String × String) × ℚ × ℚ) :=
  transactions.foldl (fun m t =>
    if t.transaction_id ∈ batch_txns then
      let k := if t.counterparty_id < "self" then (t.counterparty_id, "self")
               else ("self", t.counterparty_id)
      if "self" < t.counterparty_id then nettingUpdate m k t.amount 0
      else nettingUpdate m k 0 t.amount
    else m) []

/-- BatchingService._extract_solution. Only logical batch 1 is
materialized; costs sum over the transactions whose id landed in it. The
batch id (timestamp plus random suffix) is external nondeterminism passed
in as a parameter. -/
def extract_solution (svc : BatchingService) (bid : String)
    (txns : List TransactionResponse) (sol : ℕ → ℕ → Bool)
    (window : SettlementWindow) : Option BatchOptimizationResult :=
  let main_batch_txns := batchMembers txns sol 1
  if main_batch_txns.isEmpty then none
  else
    let members := txns.filter (fun t => t.transaction_id ∈ main_batch_txns)
    let cost_before :=
      (members.map (fun t =>
        calculate_fx_cost t.source_currency t.destination_currency t.amount
          + svc.wire_cost)).sum
    let cost_after :=
      (members.map (fun t =>
        calculate_fx_cost t.source_currency t.destination_currency t.amount)).sum
        + svc.wire_cost * (1 - svc.consolidation_discount)
    some
      { batch_id := bid
        transactions := main_batch_txns
        optimization_metrics :=
          [("solver", "pulp_cbc"), ("iterations", "1"), ("convergence", "optimal")]
        total_cost_before_optimization := cost_before
        total_cost_after_optimization := cost_after
        cost_savings := max 0 (cost_before - cost_after)
        cost_savings_percentage :=
          if 0 < cost_before then (cost_before - cost_after) / cost_before * 100 else 0
        settlement_window := window
        netting_details := calculate_netting txns main_batch_txns }

/-- BatchingService._simple_grouping: deterministic fallback taking the
first min(100, N) transactions with zero cost metrics. -/
def simple_grouping (bid : String) (transactions : List TransactionResponse)
    (window : SettlementWindow) : BatchOptimizationResult :=
  { batch_id := bid
    transactions :=
      ((transactions.take (min 100 transactions.length)).map
        (fun t => t.transaction_id))
    optimization_metrics := [("method", "simple_grouping")]
    total_cost_before_optimization := 0
    total_cost_after_optimization := 0
    cost_savings := 0
    cost_savings_percentage := 0
    settlement_window := window
    netting_details := [] }

/-- BatchingService._solve_batch_optimization: a solver error is caught and
degrades to the fallback; otherwise the solution is extracted. -/
def solve_batch_optimization (svc : BatchingService) (solver : Solver)
    (bid : String) (transactions : List TransactionResponse)
    (window : SettlementWindow)
    (liquidity_constraints : Option (List (String × ℚ))) :
    Option BatchOptimizationResult :=
  match solver transactions liquidity_constraints with
  | .error _ => some (simple_grouping bid transactions window)
  | .ok sol => extract_solution svc bid transactions sol window

/-- The slice start offsets of _optimize_for_window, transliterating
range(0, len, size) for positive size: the multiples of size below len. -/
def chunkStarts (len size : ℕ) : List ℕ :=
  (List.range len).filter (fun i => i % size = 0)

/-- The chunking of _optimize_for_window: the slice
transactions[i : i + size] for each start offset i. -/
def chunkList (size : ℕ) (l : List TransactionResponse) :
    List (List TransactionResponse) :=
  (chunkStarts l.length size).map (fun i => (l.drop i).take size)

/-- BatchingService._optimize_for_window: chunk, solve each chunk, keep the
non-None results. -/
def optimize_for_window (svc : BatchingService) (solver : Solver) (bid : String)
    (transactions : List TransactionResponse) (window : SettlementWindow)
    (liquidity_constraints : Option (List (String × ℚ))) :
    List BatchOptimizationResult :=
  if transactions.isEmpty then []
  else
    (chunkList svc.max_batch_size transactions).filterMap
      (fun chunk => solve_batch_optimization svc solver bid chunk window liquidity_constraints)

/-- BatchingService._group_by_settlement_window, with defaultdict insertion
order: a transaction is appended to the group of its window (every
SettlementWindow enum value is truthy, so the or-default in the source is
the identity). -/
def insertGroup (w : SettlementWindow) (t : TransactionResponse) :
    List (SettlementWindow × List TransactionResponse) →
      List (SettlementWindow × List TransactionResponse)
  | [] => [(w, [t])]
  | (w', g) :: rest =>
      if w' = w then (w', g ++ [t]) :: rest
      else (w', g) :: insertGroup w t rest

/-- BatchingService._group_by_settlement_window. -/
def group_by_settlement_window (transactions : List TransactionResponse) :
    List (SettlementWindow × List TransactionResponse) :=
  transactions.foldl (fun acc t => insertGroup t.settlement_window t acc) []

/-- BatchingService.optimize_batch: group by window and optimize each group
independently. -/
def optimize_batch (svc : BatchingService) (solver : Solver) (bid : String)
    (transactions : List TransactionResponse)
    (liquidity_constraints : Option (List (String × ℚ))) :
    List BatchOptimizationResult :=
  if transactions.isEmpty then []
  else
    (group_by_settlement_window transactions).flatMap
      (fun p => optimize_for_window svc solver bid p.2 p.1 liquidity_constraints)

/-! ## Intake and Deduplication Pipeline (intake_service.py) -/

/-- The errors submit_transaction can raise: a ValueError from validation
(with the source message) or a fatal publish failure. -/
inductive IntakeError
  | validation (msg : String)
  | publishFailed
  deriving DecidableEq, Repr

/-- A value cached in the idempotency store: either a serialized response
that deserializes back, or a malformed entry (deserialization failure,
treated as a cache miss). -/
inductive CachedPayload
  | malformed
  | good (r : TransactionResponse)
  deriving DecidableEq, Repr

/-- One idempotency store entry: the cached payload and its absolute
expiry instant (setex with the dedup TTL). -/
structure StoreEntry where
  payload : CachedPayload
  expiry : ℕ
  deriving DecidableEq, Repr

/-- The idempotency store state, keyed by dedup key. -/
def StoreState := String → Option StoreEntry

/-- IntakeService configuration: the dedup TTL (source default 24 hours)
and the SHA-256 hex digest modelled as an abstract string function
(hashlib is an external library). -/
structure IntakeService where
  dedup_ttl : ℕ := 86400
  hashHex : String → String

/-- The environment of one submit call: the current time and whether the
two external side effects (redis setex and kafka publish with its bounded
acknowledgment wait) succeed. -/
structure Env where
  now : ℕ
  storeWriteOk : Bool
  publishOk : Bool

/-- One producer.send call: topic, partition key (the transaction id) and
payload. -/
structure PublishRecord where
  topic : String
  partition_key : String
  payload : TransactionResponse
  deriving DecidableEq, Repr

/-- The observable outcome of one submit call: the returned value or the
raised error, the idempotency store state after the call, and the trace of
attempted store reads, store writes (key, value, ttl) and publishes. -/
structure SubmitOutcome where
  result : Except IntakeError (TransactionResponse × Bool)
  store : StoreState
  store_reads : List String
  store_writes : List (String × TransactionResponse × ℕ)
  publishes : List PublishRecord

/-- IntakeService._validate_transaction, with the source error messages.
The same-currency branch in the source is a no-op. The Python check
counterparty_id.strip() == "" (stripped of whitespace the id is empty) is
rendered as: every character of the id is whitespace. -/
def validate_transaction (t : TransactionRequest) : Except String Unit :=
  if t.amount ≤ 0 then .error "Amount must be greater than 0"
  else if (999999999.99 : ℚ) < t.amount then .error "Amount exceeds maximum limit"
  else if t.source_account = t.destination_account then
    .error "Source and destination accounts cannot be same"
  else if t.counterparty_id = "" ∨ t.counterparty_id.data.all Char.isWhitespace then
    .error "Counterparty ID is required"
  else .ok ()

/-- IntakeService._generate_dedup_key: fixed prefix plus the SHA-256 hex
digest of the idempotency key. -/
def generate_dedup_key (svc : IntakeService) (idempotency_key : String) : String :=
  "dedup:" ++ svc.hashHex idempotency_key

/-- A redis get at the given instant: present only when not yet expired. -/
def storeGet (store : StoreState) (now : ℕ) (key : String) : Option CachedPayload :=
  match store key with
  | some e => if now < e.expiry then some e.payload else none
  | none => none

/-- IntakeService._check_duplicate: look up the dedup key; a malformed
cached entry is logged and treated as a miss. -/
def check_duplicate (svc : IntakeService) (store : StoreState) (now : ℕ)
    (idempotency_key : String) : Option TransactionResponse :=
  match storeGet store now (generate_dedup_key svc idempotency_key) with
  | some (.good r) => some r
  | some .malformed => none
  | none => none

/-- A redis setex: bind the key to the payload until now plus ttl. -/
def storeSet (store : StoreState) (key : String) (e : StoreEntry) : StoreState :=
  fun k => if k = key then some e else store k

/-- The TransactionResponse built by submit_transaction: the request
fields, status submitted, fresh timestamps, all annotations unset. -/
def mkResponse (req : TransactionRequest) (now : ℕ) : TransactionResponse :=
  { toTransactionRequest := req
    status := .submitted
    batch_id := none
    settlement_time := none
    created_at := now
    updated_at := now
    fx_rate := none
    settlement_fee := none }

/-- IntakeService.submit_transaction: validate, dedup-check, construct the
response, best-effort dedup-store write (a store failure is logged and
swallowed, leaving the store unchanged), then publish (a publish failure or
timeout is re-raised to the caller). -/
def submit_transaction (svc : IntakeService) (env : Env) (store : StoreState)
    (req : TransactionRequest) : SubmitOutcome :=
  match validate_transaction req with
  | .error msg => ⟨.error (.validation msg), store, [], [], []⟩
  | .ok _ =>
    let key := generate_dedup_key svc req.idempotency_key
    match check_duplicate svc store env.now req.idempotency_key with
    | some existing => ⟨.ok (existing, true), store, [key], [], []⟩
    | none =>
      let resp := mkResponse req env.now
      let store' :=
        if env.storeWriteOk then
          storeSet store key ⟨.good resp, env.now + svc.dedup_ttl⟩
        else store
      let pub : PublishRecord := ⟨"transactions.intake", req.transaction_id, resp⟩
      if env.publishOk then
        ⟨.ok (resp, false), store', [key], [(key, resp, svc.dedup_ttl)], [pub]⟩
      else
        ⟨.error .publishFailed, store', [key], [(key, resp, svc.dedup_ttl)], [pub]⟩

/-! ## Concrete sample data for witnesses and counterexamples -/

/-- A BatchingService with the source defaults. -/
def svcDefault : BatchingService := {}

/-- Sample transaction A of the spec scenario: USD to EUR, amount 1000,
immediate window. -/
def txnA : TransactionResponse :=
  { transaction_id := "txnA", amount := 1000, source_currency := "USD",
    destination_currency := "EUR", source_account := "acct1",
    destination_account := "acct2", counterparty_id := "alice",
    idempotency_key := "keyA", settlement_window := .rtgs, metadata := [],
    status := .submitted, batch_id := none, settlement_time := none,
    created_at := 0, updated_at := 0, fx_rate := none, settlement_fee := none }

/-- Sample transaction B of the spec scenario: USD to EUR, amount 2000,
immediate window. -/
def txnB : TransactionResponse :=
  { transaction_id := "txnB", amount := 2000, source_currency := "USD",
    destination_currency := "EUR", source_account := "acct3",
    destination_account := "acct4", counterparty_id := "alice",
    idempotency_key := "keyB", settlement_window := .rtgs, metadata := [],
    status := .submitted, batch_id := none, settlement_time := none,
    created_at := 0, updated_at := 0, fx_rate := none, settlement_fee := none }

/-- A solution placing every transaction in logical batch 1. -/
def solAllOne : ℕ → ℕ → Bool := fun _ j => j == 1

/-- A solution placing every transaction in logical batch 2. -/
def solAllTwo : ℕ → ℕ → Bool := fun _ j => j == 2

/-- A solver returning the all-in-batch-1 solution. -/
def solverOne : Solver := fun _ _ => .ok solAllOne

/-- A solver returning the all-in-batch-2 solution. -/
def solverTwo : Solver := fun _ _ => .ok solAllTwo

/-- A solver that always raises. -/
def solverFail : Solver := fun _ _ => .error ()

/-- An IntakeService with the default TTL and the identity digest. -/
def svcIntake : IntakeService := { hashHex := fun s => s }

/-- The empty idempotency store. -/
def emptyStore : StoreState := fun _ => none

/-- A valid sample request. -/
def reqA : TransactionRequest :=
  { transaction_id := "txn1", amount := 100, source_currency := "USD",
    destination_currency := "EUR", source_account := "a1",
    destination_account := "a2", counterparty_id := "alice",
    idempotency_key := "k1", settlement_window := .rtgs, metadata := [] }

/-- An invalid sample request: non-positive amount. -/
def reqBad : TransactionRequest :=
  { transaction_id := "txn2", amount := -5, source_currency := "USD",
    destination_currency := "EUR", source_account := "a1",
    destination_account := "a2", counterparty_id := "alice",
    idempotency_key := "k2", settlement_window := .rtgs, metadata := [] }

/-! ## Spec-style cost definitions, for comparison with the code -/

/-- The cost-before of the spec: FX spread cost plus undiscounted wire cost,
summed over the transactions whose id landed in the main batch. -/
def specCostBefore (svc : BatchingService) (txns : List TransactionResponse)
    (main : List String) : ℚ :=
  ((txns.filter (fun t => t.transaction_id ∈ main)).map
    (fun t => calculate_fx_cost t.source_currency t.destination_currency t.amount
      + svc.wire_cost)).sum

/-- The cost-after asserted by the claim: FX spread cost plus the
discounted wire cost, summed per member transaction. -/
def claimCostAfterPerTxn (svc : BatchingService) (txns : List TransactionResponse)
    (main : List String) : ℚ :=
  ((txns.filter (fun t => t.transaction_id ∈ main)).map
    (fun t => calculate_fx_cost t.source_currency t.destination_currency t.amount
      + svc.wire_cost * (1 - svc.consolidation_discount))).sum

/-- The cost-after the code computes: the summed FX spread costs of the
members plus a single discounted wire cost for the whole batch. -/
def specCostAfterSingleWire (svc : BatchingService) (txns : List TransactionResponse)
    (main : List String) : ℚ :=
  ((txns.filter (fun t => t.transaction_id ∈ main)).map
    (fun t => calculate_fx_cost t.source_currency t.destination_currency t.amount)).sum
    + svc.wire_cost * (1 - svc.consolidation_discount)

/-- The result the engine emits for the spec scenario (transactions A and
B, both assigned to logical batch 1): FX(1000) = 1/4, FX(2000) = 1/2,
cost-before = 1/4 + 5 + 1/2 + 5 = 43/4, cost-after = 3/4 + 5 * (17/20) = 5. -/
def cexResultAB : BatchOptimizationResult :=
  { batch_id := "b"
    transactions := ["txnA", "txnB"]
    optimization_metrics :=
      [("solver", "pulp_cbc"), ("iterations", "1"), ("convergence", "optimal")]
    total_cost_before_optimization := 43/4
    total_cost_after_optimization := 5
    cost_savings := 23/4
    cost_savings_percentage := 2300/43
    settlement_window := .rtgs
    netting_details := [(("alice", "self"), 0, 3000)] }

/-! ## Helper lemmas -/

/-- Summing a function plus a constant over a list adds the constant once
per element. -/
theorem sum_map_add_const (l : List TransactionResponse)
    (f : TransactionResponse → ℚ) (c : ℚ) :
    (l.map (fun t => f t + c)).sum = (l.map f).sum + l.length * c := by
  induction l with
  | nil => simp
  | cons x xs ih =>
      simp only [List.map_cons, List.sum_cons, ih, List.length_cons]
      push_cast
      ring

/-- Every id in a logical batch is the id of some input transaction. -/
theorem batchMembers_sound {txns : List TransactionResponse}
    {sol : ℕ → ℕ → Bool} {j : ℕ} {i : String}
    (h : i ∈ batchMembers txns sol j) :
    ∃ t ∈ txns, t.transaction_id = i := by
  simp only [batchMembers, List.mem_map, List.mem_filter] at h
  obtain ⟨p, ⟨hp, _⟩, rfl⟩ := h
  exact ⟨p.2, List.snd_mem_of_mem_enum hp, rfl⟩

/-- Characterization of a successful extraction: the emitted result is
built from the members of logical batch 1. -/
theorem extract_solution_eq_some {svc : BatchingService} {bid : String}
    {txns : List TransactionResponse} {sol : ℕ → ℕ → Bool}
    {w : SettlementWindow} {r : BatchOptimizationResult}
    (h : extract_solution svc bid txns sol w = some r) :
    r.transactions = batchMembers txns sol 1 ∧
    r.transactions ≠ [] ∧
    r.settlement_window = w ∧
    r.total_cost_before_optimization =
      specCostBefore svc txns (batchMembers txns sol 1) ∧
    r.total_cost_after_optimization =
      specCostAfterSingleWire svc txns (batchMembers txns sol 1) ∧
    r.cost_savings =
      max 0 (r.total_cost_before_optimization - r.total_cost_after_optimization) ∧
    r.cost_savings_percentage =
      (if 0 < r.total_cost_before_optimization then
        (r.total_cost_before_optimization - r.total_cost_after_optimization)
          / r.total_cost_before_optimization * 100
      else 0) := by
  unfold extract_solution at h
  by_cases hm : (batchMembers txns sol 1).isEmpty
  · simp [hm] at h
  · simp only [hm, Bool.false_eq_true, if_false, Option.some.injEq] at h
    subst h
    refine ⟨rfl, ?_, rfl, rfl, rfl, rfl, rfl⟩
    simpa [List.isEmpty_iff] using hm

/-- A pair with equal components differs from any pair with distinct
components. -/
theorem same_pair_ne {c a b : String} (hab : a ≠ b) : (c, c) ≠ (a, b) := by
  intro h
  rw [Prod.mk.injEq] at h
  exact hab (h.1.symm.trans h.2)

/-- A same-currency pair is never listed in the static spread table. -/
theorem FX_SPREADS_same_currency (c : String) : FX_SPREADS (c, c) = none := by
  unfold FX_SPREADS
  split_ifs with h1 h2 h3 h4 h5 h6 h7 h8
  · exact absurd h1 (same_pair_ne (by decide))
  · exact absurd h2 (same_pair_ne (by decide))
  · exact absurd h3 (same_pair_ne (by decide))
  · exact absurd h4 (same_pair_ne (by decide))
  · exact absurd h5 (same_pair_ne (by decide))
  · exact absurd h6 (same_pair_ne (by decide))
  · exact absurd h7 (same_pair_ne (by decide))
  · exact absurd h8 (same_pair_ne (by decide))
  · rfl

/-! ## Claim theorems -/

/-- C10: a transaction whose source currency equals its destination
currency is charged the default FX spread of 5 basis points of the amount,
because a same-currency pair is never present in the static pair table. -/
theorem same_currency_default_spread (c : String) (amount : ℚ) :
    calculate_fx_cost c c amount = amount * (5 / 10000) := by
  simp [calculate_fx_cost, FX_SPREADS_same_currency]

/-- C3: a solver failure on a chunk is caught and degrades to the
deterministic fallback: the first min(100, N) transactions as a single
batch with all cost metrics zero and the distinguishing metrics tag. The
fallback and every other branch are total functions, so the engine never
propagates the failure. -/
theorem solver_failure_degrades_to_fallback (svc : BatchingService)
    (solver : Solver) (bid : String) (txns : List TransactionResponse)
    (w : SettlementWindow) (liq : Option (List (String × ℚ))) (e : Unit)
    (h : solver txns liq = .error e) :
    solve_batch_optimization svc solver bid txns w liq
      = some (simple_grouping bid txns w) ∧
    (simple_grouping bid txns w).transactions
      = (txns.map (fun t => t.transaction_id)).take 100 ∧
    (simple_grouping bid txns w).total_cost_before_optimization = 0 ∧
    (simple_grouping bid txns w).total_cost_after_optimization = 0 ∧
    (simple_grouping bid txns w).cost_savings = 0 ∧
    (simple_grouping bid txns w).cost_savings_percentage = 0 ∧
    (simple_grouping bid txns w).optimization_metrics
      = [("method", "simple_grouping")] := by
  refine ⟨?_, ?_, rfl, rfl, rfl, rfl, rfl⟩
  · unfold solve_batch_optimization
    rw [h]
  · simp only [simple_grouping]
    rw [← List.map_take]
    congr 1
    rw [List.take_eq_take]
    omega

/-- Witness for C3: the always-failing solver on the scenario input. -/
theorem solver_failure_degrades_to_fallback_witness :
    solverFail [txnA, txnB] none = .error () ∧
    solve_batch_optimization svcDefault solverFail "b" [txnA, txnB] .rtgs none
      = some (simple_grouping "b" [txnA, txnB] .rtgs) ∧
    (simple_grouping "b" [txnA, txnB] .rtgs).transactions
      = ([txnA, txnB].map (fun t => t.transaction_id)).take 100 :=
  ⟨rfl,
    (solver_failure_degrades_to_fallback svcDefault solverFail "b" [txnA, txnB]
      .rtgs none () rfl).1,
    (solver_failure_degrades_to_fallback svcDefault solverFail "b" [txnA, txnB]
      .rtgs none () rfl).2.1⟩

/-- Evaluating the engine on the spec scenario: with both transactions
assigned to logical batch 1, the emitted result is cexResultAB. -/
theorem extractAB_eq :
    extract_solution svcDefault "b" [txnA, txnB] solAllOne .rtgs
      = some cexResultAB := by
  norm_num [extract_solution, calculate_fx_cost, FX_SPREADS, batchMembers,
    calculate_netting, nettingUpdate, svcDefault, txnA, txnB, solAllOne,
    cexResultAB, List.enum, List.enumFrom, List.filter]
  rw [if_neg (by decide : ¬ (['s','e','l','f'] < ['a','l','i','c','e']))]
  rw [if_pos (by decide : (['a','l','i','c','e'] < ['s','e','l','f']))]

/-- The full pipeline on the spec scenario emits exactly cexResultAB. -/
theorem optimizeAB_eq :
    optimize_batch svcDefault solverOne "b" [txnA, txnB] none = [cexResultAB] := by
  have h2 : optimize_batch svcDefault solverOne "b" [txnA, txnB] none
      = (extract_solution svcDefault "b" [txnA, txnB] solAllOne .rtgs).toList := by rfl
  rw [h2, extractAB_eq]
  rfl

/-- C1 counterexample: in the spec scenario with both transactions landing
in sub-batch 1, the code computes cost-after 5, namely FX(1000) + FX(2000)
plus ONE discounted wire cost for the whole batch, not 37/4 as the claim
asserts (one discounted wire cost per member transaction). -/
theorem cost_after_per_txn_counterexample :
    optimize_batch svcDefault solverOne "b" [txnA, txnB] none = [cexResultAB] ∧
    cexResultAB.transactions = ["txnA", "txnB"] ∧
    cexResultAB.total_cost_after_optimization = 5 ∧
    claimCostAfterPerTxn svcDefault [txnA, txnB] cexResultAB.transactions = 37/4 ∧
    cexResultAB.total_cost_after_optimization
      ≠ claimCostAfterPerTxn svcDefault [txnA, txnB] cexResultAB.transactions := by
  have h4 : claimCostAfterPerTxn svcDefault [txnA, txnB] cexResultAB.transactions
      = 37/4 := by
    norm_num [claimCostAfterPerTxn, calculate_fx_cost, FX_SPREADS, svcDefault,
      txnA, txnB, cexResultAB, List.filter]
  refine ⟨optimizeAB_eq, rfl, rfl, h4, ?_⟩
  rw [h4]
  norm_num [cexResultAB]

/-- C1 amended: for every emitted chunk, cost-before is the sum of FX
spread cost plus undiscounted wire cost over the transactions landing in
sub-batch 1, and cost-after is the sum of the FX spread costs over the
same set plus a SINGLE discounted wire cost for the whole chunk, not one
discounted wire cost per member transaction. -/
theorem extract_cost_accounting (svc : BatchingService) (bid : String)
    (txns : List TransactionResponse) (sol : ℕ → ℕ → Bool)
    (w : SettlementWindow) (r : BatchOptimizationResult)
    (h : extract_solution svc bid txns sol w = some r) :
    r.total_cost_before_optimization = specCostBefore svc txns r.transactions ∧
    r.total_cost_after_optimization = specCostAfterSingleWire svc txns r.transactions := by
  obtain ⟨htx, _, _, hb, ha, _, _⟩ := extract_solution_eq_some h
  rw [htx, hb, ha]
  exact ⟨rfl, rfl⟩

/-- Witness for the amended C1 at the concrete spec scenario. -/
theorem extract_cost_accounting_witness :
    cexResultAB.total_cost_before_optimization
        = specCostBefore svcDefault [txnA, txnB] cexResultAB.transactions ∧
    cexResultAB.total_cost_after_optimization
        = specCostAfterSingleWire svcDefault [txnA, txnB] cexResultAB.transactions :=
  extract_cost_accounting svcDefault "b" [txnA, txnB] solAllOne .rtgs cexResultAB
    extractAB_eq

/-- Inserting a transaction into the grouping preserves the grouping
soundness invariant. -/
theorem insertGroup_preserve {src : List TransactionResponse}
    {x : TransactionResponse}
    {acc : List (SettlementWindow × List TransactionResponse)}
    (hacc : ∀ p ∈ acc, ∀ t ∈ p.2, t.settlement_window = p.1 ∧ t ∈ src)
    (hx : x ∈ src) :
    ∀ p ∈ insertGroup x.settlement_window x acc, ∀ t ∈ p.2,
      t.settlement_window = p.1 ∧ t ∈ src := by
  induction acc with
  | nil =>
      intro p hp t ht
      simp only [insertGroup, List.mem_singleton] at hp
      subst hp
      simp only [List.mem_singleton] at ht
      subst ht
      exact ⟨rfl, hx⟩
  | cons q rest ih =>
      obtain ⟨w', g⟩ := q
      intro p hp t ht
      simp only [insertGroup] at hp
      by_cases hw : w' = x.settlement_window
      · rw [if_pos hw] at hp
        rcases List.mem_cons.mp hp with hpe | hp'
        · subst hpe
          rcases List.mem_append.mp ht with h1 | h1
          · exact hacc (w', g) (List.mem_cons_self _ _) t h1
          · simp only [List.mem_singleton] at h1
            subst h1
            exact ⟨hw.symm, hx⟩
        · exact hacc _ (List.mem_cons_of_mem _ hp') t ht
      · rw [if_neg hw] at hp
        rcases List.mem_cons.mp hp with hpe | hp'
        · subst hpe
          exact hacc (w', g) (List.mem_cons_self _ _) t ht
        · exact ih (fun p hp => hacc p (List.mem_cons_of_mem _ hp)) p hp' t ht

/-- The grouping fold keeps every group member tagged with the window of
the group and drawn from the source list. -/
theorem foldl_insertGroup_sound {src : List TransactionResponse} :
    ∀ (ts : List TransactionResponse)
      (acc : List (SettlementWindow × List TransactionResponse)),
    (∀ t ∈ ts, t ∈ src) →
    (∀ p ∈ acc, ∀ t ∈ p.2, t.settlement_window = p.1 ∧ t ∈ src) →
    ∀ p ∈ ts.foldl (fun acc t => insertGroup t.settlement_window t acc) acc,
      ∀ t ∈ p.2, t.settlement_window = p.1 ∧ t ∈ src := by
  intro ts
  induction ts with
  | nil =>
      intro acc _ hacc
      simpa using hacc
  | cons x xs ih =>
      intro acc hts hacc
      rw [List.foldl_cons]
      exact ih _ (fun t ht => hts t (List.mem_cons_of_mem _ ht))
        (insertGroup_preserve hacc (hts x (List.mem_cons_self _ _)))

/-- Members of a window group requested that window and come from the
input. -/
theorem group_by_sound {txns : List TransactionResponse}
    {p : SettlementWindow × List TransactionResponse}
    (hp : p ∈ group_by_settlement_window txns) :
    ∀ t ∈ p.2, t.settlement_window = p.1 ∧ t ∈ txns :=
  foldl_insertGroup_sound txns [] (fun _ h => h) (by simp) p hp

/-- Folding same-window transactions onto a single-group accumulator
appends them to that group. -/
theorem foldl_insertGroup_same {w : SettlementWindow} :
    ∀ (ts : List TransactionResponse) (g : List TransactionResponse),
    (∀ t ∈ ts, t.settlement_window = w) →
    ts.foldl (fun acc t => insertGroup t.settlement_window t acc) [(w, g)]
      = [(w, g ++ ts)] := by
  intro ts
  induction ts with
  | nil => simp
  | cons x xs ih =>
      intro g hts
      rw [List.foldl_cons]
      rw [hts x (List.mem_cons_self _ _)]
      simp only [insertGroup, eq_self_iff_true, if_true]
      rw [ih (g ++ [x]) (fun t ht => hts t (List.mem_cons_of_mem _ ht))]
      simp

/-- Grouping a non-empty list of same-window transactions yields the one
group. -/
theorem group_by_single {txns : List TransactionResponse} {w : SettlementWindow}
    (hne : txns ≠ []) (hw : ∀ t ∈ txns, t.settlement_window = w) :
    group_by_settlement_window txns = [(w, txns)] := by
  obtain ⟨x, xs, rfl⟩ := List.exists_cons_of_ne_nil hne
  unfold group_by_settlement_window
  rw [List.foldl_cons]
  rw [hw x (List.mem_cons_self _ _)]
  show xs.foldl _ [(w, [x])] = _
  rw [foldl_insertGroup_same xs [x] (fun t ht => hw t (List.mem_cons_of_mem _ ht))]
  simp

/-- When the whole list fits in one chunk, the start offsets are just 0. -/
theorem chunkStarts_single {len size : ℕ} (h1 : 0 < len) (h2 : len ≤ size) :
    chunkStarts len size = [0] := by
  unfold chunkStarts
  induction len with
  | zero => omega
  | succ n ih =>
      rw [List.range_succ, List.filter_append]
      rcases Nat.eq_zero_or_pos n with hn | hn
      · subst hn
        simp
      · rw [ih hn (le_trans (Nat.le_succ n) h2)]
        have hns : ¬ (n % size = 0) := by
          have hlt : n < size := lt_of_lt_of_le (Nat.lt_succ_self n) h2
          rw [Nat.mod_eq_of_lt hlt]
          omega
        simp [hns]

/-- A list that fits in one chunk is its own single chunk. -/
theorem chunkList_single {size : ℕ} {l : List TransactionResponse}
    (hne : l ≠ []) (hlen : l.length ≤ size) :
    chunkList size l = [l] := by
  unfold chunkList
  rw [chunkStarts_single (List.length_pos.mpr hne) hlen]
  simp [List.take_of_length_le hlen]

/-- Every element of every chunk comes from the chunked list. -/
theorem mem_chunkList_subset {size : ℕ} {l c : List TransactionResponse}
    (hc : c ∈ chunkList size l) : ∀ x ∈ c, x ∈ l := by
  unfold chunkList at hc
  obtain ⟨i, _, rfl⟩ := List.mem_map.mp hc
  intro x hx
  exact List.drop_subset i l (List.take_subset _ _ hx)

/-- Whatever _solve_batch_optimization emits carries the window it was
called for, and its member ids are ids of chunk transactions. -/
theorem solve_sound {svc : BatchingService} {solver : Solver} {bid : String}
    {txns : List TransactionResponse} {w : SettlementWindow}
    {liq : Option (List (String × ℚ))} {r : BatchOptimizationResult}
    (h : solve_batch_optimization svc solver bid txns w liq = some r) :
    r.settlement_window = w ∧
    ∀ i ∈ r.transactions, ∃ t ∈ txns, t.transaction_id = i := by
  unfold solve_batch_optimization at h
  cases hs : solver txns liq with
  | error e =>
      rw [hs] at h
      obtain rfl := Option.some.inj h
      refine ⟨rfl, fun i hi => ?_⟩
      simp only [simple_grouping, List.mem_map] at hi
      obtain ⟨t, ht, rfl⟩ := hi
      exact ⟨t, List.take_subset _ _ ht, rfl⟩
  | ok sol =>
      rw [hs] at h
      obtain ⟨htx, _, hw, _, _, _, _⟩ := extract_solution_eq_some h
      refine ⟨hw, fun i hi => ?_⟩
      rw [htx] at hi
      exact batchMembers_sound hi

/-- Every emitted result arises from one window group and one chunk of it. -/
theorem mem_optimize_batch {svc : BatchingService} {solver : Solver}
    {bid : String} {txns : List TransactionResponse}
    {liq : Option (List (String × ℚ))} {r : BatchOptimizationResult}
    (h : r ∈ optimize_batch svc solver bid txns liq) :
    ∃ w chunk, (∀ t ∈ chunk, t ∈ txns ∧ t.settlement_window = w) ∧
      solve_batch_optimization svc solver bid chunk w liq = some r := by
  unfold optimize_batch at h
  by_cases hemp : txns.isEmpty
  · simp [hemp] at h
  · simp only [hemp, Bool.false_eq_true, if_false] at h
    obtain ⟨p, hp, hr⟩ := List.mem_flatMap.mp h
    unfold optimize_for_window at hr
    by_cases hemp2 : p.2.isEmpty
    · simp [hemp2] at hr
    · simp only [hemp2, Bool.false_eq_true, if_false] at hr
      obtain ⟨c, hc, hsol⟩ := List.mem_filterMap.mp hr
      refine ⟨p.1, c, fun t ht => ?_, hsol⟩
      have htp := mem_chunkList_subset hc t ht
      have hsound := group_by_sound hp t htp
      exact ⟨hsound.2, hsound.1⟩

/-- C7: every emitted result reports cost savings clamped non-negative,
max(0, cost-before - cost-after), while the savings percentage is the
unclamped (cost-before - cost-after) / cost-before * 100, and 0 when
cost-before is not positive. -/
theorem savings_clamped_percentage_unclamped (svc : BatchingService)
    (solver : Solver) (bid : String) (txns : List TransactionResponse)
    (liq : Option (List (String × ℚ))) (r : BatchOptimizationResult)
    (h : r ∈ optimize_batch svc solver bid txns liq) :
    r.cost_savings =
      max 0 (r.total_cost_before_optimization - r.total_cost_after_optimization) ∧
    r.cost_savings_percentage =
      (if 0 < r.total_cost_before_optimization then
        (r.total_cost_before_optimization - r.total_cost_after_optimization)
          / r.total_cost_before_optimization * 100
      else 0) := by
  obtain ⟨w, c, _, hsol⟩ := mem_optimize_batch h
  unfold solve_batch_optimization at hsol
  cases hs : solver c liq with
  | error e =>
      rw [hs] at hsol
      obtain rfl := Option.some.inj hsol
      constructor <;> simp [simple_grouping]
  | ok sol =>
      rw [hs] at hsol
      obtain ⟨_, _, _, _, _, hsav, hpct⟩ := extract_solution_eq_some hsol
      exact ⟨hsav, hpct⟩

/-- Witness for C7 at the concrete spec scenario. -/
theorem savings_clamped_percentage_unclamped_witness :
    cexResultAB.cost_savings =
      max 0 (cexResultAB.total_cost_before_optimization
        - cexResultAB.total_cost_after_optimization) ∧
    cexResultAB.cost_savings_percentage =
      (if 0 < cexResultAB.total_cost_before_optimization then
        (cexResultAB.total_cost_before_optimization
            - cexResultAB.total_cost_after_optimization)
          / cexResultAB.total_cost_before_optimization * 100
      else 0) :=
  savings_clamped_percentage_unclamped svcDefault solverOne "b" [txnA, txnB]
    none cexResultAB (by rw [optimizeAB_eq]; exact List.mem_singleton_self _)

/-- C8: transactions are partitioned by settlement window and each group
optimized independently: every member id of an emitted result is the id of
an input transaction whose requested window is the window the result
carries. -/
theorem window_partition_invariant (svc : BatchingService) (solver : Solver)
    (bid : String) (txns : List TransactionResponse)
    (liq : Option (List (String × ℚ))) (r : BatchOptimizationResult)
    (h : r ∈ optimize_batch svc solver bid txns liq) :
    ∀ i ∈ r.transactions, ∃ t, t ∈ txns ∧ t.transaction_id = i ∧
      t.settlement_window = r.settlement_window := by
  obtain ⟨w, c, hmem, hsol⟩ := mem_optimize_batch h
  obtain ⟨hw, hid⟩ := solve_sound hsol
  intro i him
  obtain ⟨t, ht, htid⟩ := hid i him
  refine ⟨t, (hmem t ht).1, htid, ?_⟩
  rw [hw, (hmem t ht).2]

/-- Witness for C8 at the concrete spec scenario and the member id txnA. -/
theorem window_partition_invariant_witness :
    ∃ t, t ∈ [txnA, txnB] ∧ t.transaction_id = "txnA" ∧
      t.settlement_window = cexResultAB.settlement_window :=
  window_partition_invariant svcDefault solverOne "b" [txnA, txnB] none
    cexResultAB (by rw [optimizeAB_eq]; exact List.mem_singleton_self _)
    "txnA" (by decide)

/-- A successfully extracted result costs at most its pre-optimization
baseline when the wire cost is non-negative and the discount positive. -/
theorem extract_cost_le {svc : BatchingService} {bid : String}
    {txns : List TransactionResponse} {sol : ℕ → ℕ → Bool}
    {w : SettlementWindow} {r : BatchOptimizationResult}
    (h : extract_solution svc bid txns sol w = some r)
    (hwire : 0 ≤ svc.wire_cost) (hdisc : 0 < svc.consolidation_discount) :
    r.total_cost_after_optimization ≤ r.total_cost_before_optimization := by
  obtain ⟨htx, hne, _, hb, ha, _, _⟩ := extract_solution_eq_some h
  rw [hb, ha]
  unfold specCostBefore specCostAfterSingleWire
  set members := txns.filter
    (fun t => t.transaction_id ∈ batchMembers txns sol 1) with hmem
  rw [sum_map_add_const]
  have hne2 : members ≠ [] := by
    rw [htx] at hne
    obtain ⟨i, hi⟩ := List.exists_mem_of_ne_nil _ hne
    obtain ⟨t, ht, htid⟩ := batchMembers_sound hi
    intro hcontra
    have htm : t ∈ members := by
      rw [hmem]
      refine List.mem_filter.mpr ⟨ht, ?_⟩
      simp [htid, hi]
    rw [hcontra] at htm
    simp at htm
  have hlen : (1 : ℚ) ≤ (members.length : ℚ) := by
    have := List.length_pos.mpr hne2
    exact_mod_cast this
  nlinarith [mul_nonneg (sub_nonneg.mpr hlen) hwire,
    mul_nonneg hwire (le_of_lt hdisc)]

/-- C2 amended: for a non-empty set of transactions all in the same
settlement window with total size within the max batch size, optimize
returns AT MOST one result (none when the solver leaves sub-batch 1
empty); any returned result is non-empty, its member ids are ids of input
transactions, and its cost-after is at most its cost-before whenever the
consolidation discount is positive and the wire cost non-negative. -/
theorem optimize_single_window_at_most_one (svc : BatchingService)
    (solver : Solver) (bid : String) (txns : List TransactionResponse)
    (w : SettlementWindow) (liq : Option (List (String × ℚ)))
    (hw : ∀ t ∈ txns, t.settlement_window = w)
    (hne : txns ≠ [])
    (hsize : txns.length ≤ svc.max_batch_size)
    (hwire : 0 ≤ svc.wire_cost)
    (hdisc : 0 < svc.consolidation_discount) :
    (optimize_batch svc solver bid txns liq).length ≤ 1 ∧
    ∀ r ∈ optimize_batch svc solver bid txns liq,
      r.transactions ≠ [] ∧
      (∀ i ∈ r.transactions, ∃ t ∈ txns, t.transaction_id = i) ∧
      r.total_cost_after_optimization ≤ r.total_cost_before_optimization := by
  have hemp : txns.isEmpty = false := by simp [List.isEmpty_iff, hne]
  have heq : optimize_batch svc solver bid txns liq
      = (solve_batch_optimization svc solver bid txns w liq).toList := by
    unfold optimize_batch
    rw [if_neg (by simp [hemp]), group_by_single hne hw]
    simp only [List.flatMap_cons, List.flatMap_nil, List.append_nil]
    unfold optimize_for_window
    rw [if_neg (by simp [hemp]), chunkList_single hne hsize]
    cases hsol : solve_batch_optimization svc solver bid txns w liq <;>
      simp [hsol]
  rw [heq]
  cases hsol : solve_batch_optimization svc solver bid txns w liq with
  | none => simp
  | some r =>
      refine ⟨by simp, fun r' hr' => ?_⟩
      simp only [Option.toList_some, List.mem_singleton] at hr'
      subst hr'
      obtain ⟨hwin, hids⟩ := solve_sound hsol
      refine ⟨?_, fun i hi => hids i hi, ?_⟩
      · unfold solve_batch_optimization at hsol
        cases hs : solver txns liq with
        | error e =>
            rw [hs] at hsol
            obtain rfl := Option.some.inj hsol
            have h100 : min 100 txns.length ≠ 0 := by
              have := List.length_pos.mpr hne
              omega
            simp only [simple_grouping, ne_eq, List.map_eq_nil_iff,
              List.take_eq_nil_iff]
            push_neg
            exact ⟨h100, hne⟩
        | ok sol =>
            rw [hs] at hsol
            exact (extract_solution_eq_some hsol).2.1
      · unfold solve_batch_optimization at hsol
        cases hs : solver txns liq with
        | error e =>
            rw [hs] at hsol
            obtain rfl := Option.some.inj hsol
            simp [simple_grouping]
        | ok sol =>
            rw [hs] at hsol
            exact extract_cost_le hsol hwire hdisc

/-- Witness for the amended C2 at the concrete spec scenario. -/
theorem optimize_single_window_at_most_one_witness :
    (optimize_batch svcDefault solverOne "b" [txnA, txnB] none).length ≤ 1 ∧
    ∀ r ∈ optimize_batch svcDefault solverOne "b" [txnA, txnB] none,
      r.transactions ≠ [] ∧
      (∀ i ∈ r.transactions, ∃ t ∈ [txnA, txnB], t.transaction_id = i) ∧
      r.total_cost_after_optimization ≤ r.total_cost_before_optimization :=
  optimize_single_window_at_most_one svcDefault solverOne "b" [txnA, txnB]
    .rtgs none
    (by
      intro t ht
      simp only [List.mem_cons, List.mem_singleton, List.not_mem_nil, or_false] at ht
      rcases ht with rfl | rfl <;> rfl)
    (by simp)
    (by decide)
    (by norm_num [svcDefault])
    (by norm_num [svcDefault])

/-- C2 counterexample: one immediate-window transaction within the batch
size bound, and a feasible solver assignment (each transaction in exactly
one logical batch) placing it in batch 2: sub-batch 1 is empty, so
optimize emits NO result, not exactly one. -/
theorem exactly_one_result_counterexample :
    optimize_batch svcDefault solverTwo "b" [txnA] none = [] ∧
    ExactlyOneBatch 1 solAllTwo ∧
    (∀ t ∈ [txnA], t.settlement_window = SettlementWindow.rtgs) ∧
    [txnA].length ≤ svcDefault.max_batch_size ∧
    0 < svcDefault.consolidation_discount := by
  refine ⟨rfl, fun i _ => rfl, ?_, by decide, by norm_num [svcDefault]⟩
  intro t ht
  simp only [List.mem_singleton] at ht
  subst ht
  rfl

/-- C4: the two side-effect steps of submit have asymmetric error
policies. For an accepted (valid, non-duplicate) request, a dedup-store
write failure is swallowed and the call still returns the fresh response
normally, while a publish failure or timeout is raised to the caller as a
fatal error. -/
theorem submit_error_policy_asymmetry (svc : IntakeService)
    (store : StoreState) (req : TransactionRequest) (now : ℕ)
    (hval : validate_transaction req = .ok ())
    (hmiss : check_duplicate svc store now req.idempotency_key = none) :
    (submit_transaction svc ⟨now, false, true⟩ store req).result
      = .ok (mkResponse req now, false) ∧
    (submit_transaction svc ⟨now, true, false⟩ store req).result
      = .error .publishFailed := by
  constructor <;> simp [submit_transaction, hval, hmiss]

/-- Validation of the concrete valid request evaluates to ok. -/
theorem validate_reqA : validate_transaction reqA = .ok () := by
  unfold validate_transaction
  rw [if_neg (by norm_num [reqA] : ¬ (reqA.amount ≤ 0))]
  rw [if_neg (by norm_num [reqA] : ¬ ((999999999.99 : ℚ) < reqA.amount))]
  rw [if_neg (by decide : ¬ (reqA.source_account = reqA.destination_account))]
  rw [if_neg (by decide : ¬ (reqA.counterparty_id = ""
    ∨ reqA.counterparty_id.data.all Char.isWhitespace = true))]

/-- Witness for C4 on a concrete valid request and the empty store. -/
theorem submit_error_policy_asymmetry_witness :
    (submit_transaction svcIntake ⟨0, false, true⟩ emptyStore reqA).result
      = .ok (mkResponse reqA 0, false) ∧
    (submit_transaction svcIntake ⟨0, true, false⟩ emptyStore reqA).result
      = .error .publishFailed :=
  submit_error_policy_asymmetry svcIntake emptyStore reqA 0
    validate_reqA rfl

/-- C5: submitting a valid request and then submitting again with the same
idempotency key within the dedup TTL returns isDuplicate = true together
with a response payload identical to the one returned by the first call. -/
theorem submit_duplicate_returns_cached (svc : IntakeService)
    (store : StoreState) (req : TransactionRequest) (now now₂ : ℕ)
    (w₂ p₂ : Bool)
    (hval : validate_transaction req = .ok ())
    (hmiss : check_duplicate svc store now req.idempotency_key = none)
    (httl : now₂ < now + svc.dedup_ttl) :
    (submit_transaction svc ⟨now, true, true⟩ store req).result
      = .ok (mkResponse req now, false) ∧
    (submit_transaction svc ⟨now₂, w₂, p₂⟩
        (submit_transaction svc ⟨now, true, true⟩ store req).store req).result
      = .ok (mkResponse req now, true) := by
  have hstore : (submit_transaction svc ⟨now, true, true⟩ store req).store
      = storeSet store (generate_dedup_key svc req.idempotency_key)
          ⟨.good (mkResponse req now), now + svc.dedup_ttl⟩ := by
    simp [submit_transaction, hval, hmiss]
  have hdup : check_duplicate svc
      (storeSet store (generate_dedup_key svc req.idempotency_key)
        ⟨.good (mkResponse req now), now + svc.dedup_ttl⟩) now₂
      req.idempotency_key = some (mkResponse req now) := by
    simp [check_duplicate, storeGet, storeSet, httl]
  constructor
  · simp [submit_transaction, hval, hmiss]
  · rw [hstore]
    simp [submit_transaction, hval, hdup]

/-- Witness for C5 on a concrete valid request and the empty store. -/
theorem submit_duplicate_returns_cached_witness :
    (submit_transaction svcIntake ⟨0, true, true⟩ emptyStore reqA).result
      = .ok (mkResponse reqA 0, false) ∧
    (submit_transaction svcIntake ⟨0, true, true⟩
        (submit_transaction svcIntake ⟨0, true, true⟩ emptyStore reqA).store
        reqA).result
      = .ok (mkResponse reqA 0, true) :=
  submit_duplicate_returns_cached svcIntake emptyStore reqA 0 0 true true
    validate_reqA rfl (by decide)

/-- C6: a request with non-positive amount, amount above the 999999999.99
bound, equal source and destination accounts, or blank counterparty id is
rejected with a validation error before any side effect: no store read,
no store write, no publish, and the store is unchanged. -/
theorem submit_rejects_before_side_effects (svc : IntakeService) (env : Env)
    (store : StoreState) (req : TransactionRequest)
    (h : req.amount ≤ 0 ∨ (999999999.99 : ℚ) < req.amount ∨
         req.source_account = req.destination_account ∨
         req.counterparty_id.data.all Char.isWhitespace = true) :
    (∃ msg, (submit_transaction svc env store req).result
      = .error (.validation msg)) ∧
    (submit_transaction svc env store req).store = store ∧
    (submit_transaction svc env store req).store_reads = [] ∧
    (submit_transaction svc env store req).store_writes = [] ∧
    (submit_transaction svc env store req).publishes = [] := by
  have hval : ∃ msg, validate_transaction req = .error msg := by
    unfold validate_transaction
    split_ifs with h1 h2 h3 h4
    · exact ⟨_, rfl⟩
    · exact ⟨_, rfl⟩
    · exact ⟨_, rfl⟩
    · exact ⟨_, rfl⟩
    · rcases h with h | h | h | h
      · exact absurd h h1
      · exact absurd h h2
      · exact absurd h h3
      · rw [not_or] at h4
        exact absurd h h4.2
  obtain ⟨msg, hmsg⟩ := hval
  refine ⟨⟨msg, ?_⟩, ?_, ?_, ?_, ?_⟩ <;> simp [submit_transaction, hmsg]

/-- Witness for C6 on a concrete request with negative amount. -/
theorem submit_rejects_before_side_effects_witness :
    (∃ msg, (submit_transaction svcIntake ⟨0, true, true⟩ emptyStore
      reqBad).result = .error (.validation msg)) ∧
    (submit_transaction svcIntake ⟨0, true, true⟩ emptyStore reqBad).store
      = emptyStore ∧
    (submit_transaction svcIntake ⟨0, true, true⟩ emptyStore
      reqBad).store_reads = [] ∧
    (submit_transaction svcIntake ⟨0, true, true⟩ emptyStore
      reqBad).store_writes = [] ∧
    (submit_transaction svcIntake ⟨0, true, true⟩ emptyStore
      reqBad).publishes = [] :=
  submit_rejects_before_side_effects svcIntake ⟨0, true, true⟩ emptyStore
    reqBad (Or.inl (by norm_num [reqBad]))

/-- C9: when publish fails on an accepted request, the dedup-store write
has already happened: the call errors, yet the key stays mapped to the
never-published response until the TTL expires, so a retry with the same
idempotency key within the TTL returns that cached response with
isDuplicate = true and performs no publish. -/
theorem submit_publish_failure_nonatomic (svc : IntakeService)
    (store : StoreState) (req : TransactionRequest) (now now₂ : ℕ)
    (w₂ p₂ : Bool)
    (hval : validate_transaction req = .ok ())
    (hmiss : check_duplicate svc store now req.idempotency_key = none)
    (httl : now₂ < now + svc.dedup_ttl) :
    (submit_transaction svc ⟨now, true, false⟩ store req).result
      = .error .publishFailed ∧
    (submit_transaction svc ⟨now, true, false⟩ store req).store
        (generate_dedup_key svc req.idempotency_key)
      = some ⟨.good (mkResponse req now), now + svc.dedup_ttl⟩ ∧
    (submit_transaction svc ⟨now₂, w₂, p₂⟩
        (submit_transaction svc ⟨now, true, false⟩ store req).store req).result
      = .ok (mkResponse req now, true) ∧
    (submit_transaction svc ⟨now₂, w₂, p₂⟩
        (submit_transaction svc ⟨now, true, false⟩ store req).store
        req).publishes = [] := by
  have hstore : (submit_transaction svc ⟨now, true, false⟩ store req).store
      = storeSet store (generate_dedup_key svc req.idempotency_key)
          ⟨.good (mkResponse req now), now + svc.dedup_ttl⟩ := by
    simp [submit_transaction, hval, hmiss]
  have hdup : check_duplicate svc
      (storeSet store (generate_dedup_key svc req.idempotency_key)
        ⟨.good (mkResponse req now), now + svc.dedup_ttl⟩) now₂
      req.idempotency_key = some (mkResponse req now) := by
    simp [check_duplicate, storeGet, storeSet, httl]
  refine ⟨?_, ?_, ?_, ?_⟩
  · simp [submit_transaction, hval, hmiss]
  · rw [hstore]
    simp [storeSet]
  · rw [hstore]
    simp [submit_transaction, hval, hdup]
  · rw [hstore]
    simp [submit_transaction, hval, hdup]

/-- Witness for C9 on a concrete valid request and the empty store. -/
theorem submit_publish_failure_nonatomic_witness :
    (submit_transaction svcIntake ⟨0, true, false⟩ emptyStore reqA).result
      = .error .publishFailed ∧
    (submit_transaction svcIntake ⟨0, true, false⟩ emptyStore reqA).store
        (generate_dedup_key svcIntake reqA.idempotency_key)
      = some ⟨.good (mkResponse reqA 0), 0 + svcIntake.dedup_ttl⟩ ∧
    (submit_transaction svcIntake ⟨0, false, true⟩
        (submit_transaction svcIntake ⟨0, true, false⟩ emptyStore
          reqA).store reqA).result
      = .ok (mkResponse reqA 0, true) ∧
    (submit_transaction svcIntake ⟨0, false, true⟩
        (submit_transaction svcIntake ⟨0, true, false⟩ emptyStore
          reqA).store reqA).publishes = [] :=
  submit_publish_failure_nonatomic svcIntake emptyStore reqA 0 0 false true
    validate_reqA rfl (by decide)

end Settlement
